import Mathlib

/-!
Verification of the SolidWorks command parser (`Backend/command_parser.py`).

A shallow embedding of `SolidWorksCommandParser`: Python strings become
`List Char` / `String`, Python ints become `Int`, Python floats become
`PyFloat` (an exact decimal `mantissa * 10 ^ exp` — every float in this
program arises from decimal literals, `* 2`, `abs` and negation, so the
decimal model is exact), JSON values become `JsonVal`, and Python exceptions
become `Except String`.  Each method of the class is translated to a Lean
function of the same name; the regex literals of the source are hand-compiled
to explicit scanning functions with Python `re` search semantics (leftmost
match, greedy/lazy as written, ASCII character classes).
-/

namespace SwPlugin

/-! ### Character classes (Python `re` ASCII semantics) -/

/-- Python `\s` on ASCII text. -/
def isWs (c : Char) : Bool :=
  c = ' ' || c = '\t' || c = '\n' || c = '\r' || c = '\x0b' || c = '\x0c'

/-- Python `\d` on ASCII text. -/
def isDigit (c : Char) : Bool := c.isDigit

/-- Python `\w` on ASCII text. -/
def isWordChar (c : Char) : Bool := c.isAlpha || c.isDigit || c = '_'

/-- Python `str.lower()` on ASCII text. -/
def pyLowerChar (c : Char) : Char :=
  if c.isUpper then Char.ofNat (c.toNat + 32) else c

/-- Python `str.upper()` on ASCII text. -/
def pyUpperChar (c : Char) : Char :=
  if c.isLower then Char.ofNat (c.toNat - 32) else c

def pyLower (s : String) : String := ⟨s.data.map pyLowerChar⟩

def pyUpper (s : String) : String := ⟨s.data.map pyUpperChar⟩

/-- Maximal run of whitespace removed (regex `\s*`, greedy). -/
def skipWs : List Char → List Char
  | c :: cs => if isWs c then skipWs cs else c :: cs
  | [] => []

/-- Maximal run of digits (regex `\d+`, greedy), returned with the rest. -/
def digitsRun : List Char → List Char × List Char
  | c :: cs =>
    if isDigit c then
      let (ds, r) := digitsRun cs
      (c :: ds, r)
    else ([], c :: cs)
  | [] => ([], [])

/-- Python `needle in haystack` (contiguous substring test). -/
def listContainsSub (hay needle : List Char) : Bool :=
  match hay with
  | [] => needle.isEmpty
  | _ :: t => needle.isPrefixOf hay || listContainsSub t needle

/-- Python `needle in haystack` on strings. -/
def strContains (hay needle : String) : Bool := listContainsSub hay.data needle.data

/-- Python `any(word in text for word in words)`. -/
def containsAny (hay : String) (words : List String) : Bool :=
  words.any (fun w => strContains hay w)

def digitsToNat (ds : List Char) : Nat :=
  ds.foldl (fun acc c => acc * 10 + (c.toNat - '0'.toNat)) 0

/-- Python `int(group)` for a digit group. -/
def digitsToInt (ds : List Char) : Int := (digitsToNat ds : Int)

/-! ### Python floats as exact decimals -/

/-- A Python float, represented exactly as `mantissa * 10 ^ exp`.  Every float
this program manipulates comes from a decimal literal in the text (or a JSON
number), optionally negated, `abs`-ed or doubled, so the representation is
exact and arithmetic is kernel-computable. -/
structure PyFloat where
  mantissa : Int
  exp : Int
deriving DecidableEq, Repr

namespace PyFloat

/-- Python `float("<ds>.<fs>")` for digit runs `ds`, `fs` (`fs = []`: no fraction). -/
def ofDigits (ds fs : List Char) : PyFloat :=
  ⟨digitsToInt (ds ++ fs), -(fs.length : Int)⟩

/-- Python truthiness of a float (`0.0` is falsy). -/
def isZero (f : PyFloat) : Bool := f.mantissa = 0

def neg (f : PyFloat) : PyFloat := ⟨-f.mantissa, f.exp⟩

def abs (f : PyFloat) : PyFloat := ⟨|f.mantissa|, f.exp⟩

def mulInt (f : PyFloat) (n : Int) : PyFloat := ⟨f.mantissa * n, f.exp⟩

/-- Digits of a natural number, most significant first. -/
def natDigits (n : Nat) : List Char :=
  (Nat.toDigits 10 n)

/-- Python `str(float)` for the exact decimals arising here: sign, integer part,
a dot, fractional digits with trailing zeros stripped (at least one digit),
e.g. `10.0`, `2.5`. -/
def pyStr (f : PyFloat) : String :=
  let sign := if f.mantissa < 0 then "-" else ""
  let m := f.mantissa.natAbs
  if 0 ≤ f.exp then
    sign ++ ⟨natDigits (m * 10 ^ f.exp.toNat)⟩ ++ ".0"
  else
    let k := (-f.exp).toNat
    let ip := m / 10 ^ k
    let fp := m % 10 ^ k
    let fracDigits := natDigits fp
    let padded := List.replicate (k - fracDigits.length) '0' ++ fracDigits
    let stripped := (padded.reverse.dropWhile (· = '0')).reverse
    let frac := if stripped.isEmpty then "0" else (⟨stripped⟩ : String)
    sign ++ ⟨natDigits ip⟩ ++ "." ++ frac

/-- Python `f"{x:+.1f}"`: sign of the value, then the absolute value rounded
to one decimal (ties to even). -/
def pyFormatPlus1f (f : PyFloat) : String :=
  let sign := if f.mantissa < 0 then "-" else "+"
  let m := f.mantissa.natAbs
  -- |value| * 10 = m * 10 ^ (exp + 1); round to an integer, ties to even
  let e1 := f.exp + 1
  let n :=
    if 0 ≤ e1 then m * 10 ^ e1.toNat
    else
      let k := (-e1).toNat
      let q := m / 10 ^ k
      let r := m % 10 ^ k
      let half := 10 ^ k / 2
      if r > half then q + 1
      else if r < half then q
      else if q % 2 = 0 then q else q + 1
  sign ++ ⟨natDigits (n / 10)⟩ ++ "." ++ ⟨natDigits (n % 10)⟩

end PyFloat

/-- A Python int-or-float value (results of `... or <int default>` chains). -/
inductive PyNum where
  | pint (n : Int)
  | pfloat (f : PyFloat)
deriving DecidableEq, Repr

namespace PyNum

/-- Python `str(x)` for a Python number. -/
def pyStr : PyNum → String
  | .pint n => toString n
  | .pfloat f => f.pyStr

/-- Python `opt or d`: Python `or` on an optional float against an int default
(`None` and `0.0` are falsy). -/
def orDefault (o : Option PyFloat) (d : PyNum) : PyNum :=
  match o with
  | some f => if f.isZero then d else .pfloat f
  | none => d

end PyNum

/-! ### JSON values -/

/-- A Python value produced by `json.loads` (or a dict built by the
inferrer): `jint`/`jfloat` mirror Python's `int`/`float` split for JSON
numbers; `jobj` keeps insertion order like a Python dict. -/
inductive JsonVal where
  | jnull
  | jbool (b : Bool)
  | jint (n : Int)
  | jfloat (f : PyFloat)
  | jstr (s : String)
  | jarr (elems : List JsonVal)
  | jobj (fields : List (String × JsonVal))

def PyNum.toJson : PyNum → JsonVal
  | .pint n => .jint n
  | .pfloat f => .jfloat f

/-- Python `d[k] = v` on a Python dict: replace in place if the key exists
(insertion position preserved), else append. -/
def dictInsert (fields : List (String × JsonVal)) (k : String) (v : JsonVal) :
    List (String × JsonVal) :=
  match fields with
  | [] => [(k, v)]
  | (k', v') :: rest =>
    if k' = k then (k', v) :: rest else (k', v') :: dictInsert rest k v

/-- Python `d.get(k)` on a Python dict. -/
def dictGet? (fields : List (String × JsonVal)) (k : String) : Option JsonVal :=
  (fields.find? (fun kv => kv.1 == k)).map (·.2)

/-- Python `d.get(k, default)` on a Python dict. -/
def dictGetD (fields : List (String × JsonVal)) (k : String) (d : JsonVal) : JsonVal :=
  (dictGet? fields k).getD d

/-- Python `d.setdefault(k, v)` on a Python dict (returns the updated dict). -/
def dictSetDefault (fields : List (String × JsonVal)) (k : String) (v : JsonVal) :
    List (String × JsonVal) :=
  match dictGet? fields k with
  | some _ => fields
  | none => fields ++ [(k, v)]

/-! ### `json.loads` (strict RFC-8259 JSON, as Python's `json` module parses
it; the Python extras `NaN`/`Infinity` are omitted — no candidate here can
contain them and they have no exact-decimal value) -/

def hexDigitVal (c : Char) : Option Nat :=
  let idx := "0123456789abcdef".data.indexOf (pyLowerChar c)
  if idx < 16 then some idx else none

/-- Body of a JSON string after the opening quote: content and rest after the
closing quote. -/
def parseStringBody : List Char → Except String (List Char × List Char)
  | [] => .error "Unterminated string"
  | '"' :: rest => .ok ([], rest)
  | '\\' :: rest =>
    match rest with
    | '"' :: r => (parseStringBody r).map (fun (s, t) => ('"' :: s, t))
    | '\\' :: r => (parseStringBody r).map (fun (s, t) => ('\\' :: s, t))
    | '/' :: r => (parseStringBody r).map (fun (s, t) => ('/' :: s, t))
    | 'b' :: r => (parseStringBody r).map (fun (s, t) => ('\x08' :: s, t))
    | 'f' :: r => (parseStringBody r).map (fun (s, t) => ('\x0c' :: s, t))
    | 'n' :: r => (parseStringBody r).map (fun (s, t) => ('\n' :: s, t))
    | 'r' :: r => (parseStringBody r).map (fun (s, t) => ('\r' :: s, t))
    | 't' :: r => (parseStringBody r).map (fun (s, t) => ('\t' :: s, t))
    | 'u' :: a :: b :: c :: d :: r =>
      match hexDigitVal a, hexDigitVal b, hexDigitVal c, hexDigitVal d with
      | some x, some y, some z, some w =>
        (parseStringBody r).map
          (fun (s, t) => (Char.ofNat (((x * 16 + y) * 16 + z) * 16 + w) :: s, t))
      | _, _, _, _ => .error "Invalid \\uXXXX escape"
    | _ => .error "Invalid \\escape"
  | c :: rest =>
    if c.toNat < 0x20 then .error "Invalid control character"
    else (parseStringBody rest).map (fun (s, t) => (c :: s, t))

/-- A JSON number at the head of the input (grammar
`-?(0|[1-9]\d*)(\.\d+)?([eE][+-]?\d+)?`); `int` result when there is no
fraction and no exponent, `float` otherwise. -/
def parseNumber (cs : List Char) : Except String (JsonVal × List Char) :=
  let (negSign, cs1) := match cs with
    | '-' :: r => (true, r)
    | _ => (false, cs)
  match cs1 with
  | c :: r =>
    if c = '0' then parseNumTail negSign ['0'] r
    else if isDigit c then
      let (ds, r2) := digitsRun r
      parseNumTail negSign (c :: ds) r2
    else .error "Expecting value"
  | [] => .error "Expecting value"
where
  parseNumTail (neg : Bool) (intDigits : List Char) (rest : List Char) :
      Except String (JsonVal × List Char) :=
    let (fracDigits, rest2) := match rest with
      | '.' :: r =>
        match digitsRun r with
        | ([], _) => ([], rest)
        | (fs, r2) => (fs, r2)
      | _ => ([], rest)
    let expPart : Option (Int × List Char) := match rest2 with
      | 'e' :: r | 'E' :: r =>
        (match r with
         | '+' :: r2 =>
           (match digitsRun r2 with
            | ([], _) => none
            | (es, r3) => some (digitsToInt es, r3))
         | '-' :: r2 =>
           (match digitsRun r2 with
            | ([], _) => none
            | (es, r3) => some (-digitsToInt es, r3))
         | _ =>
           (match digitsRun r with
            | ([], _) => none
            | (es, r3) => some (digitsToInt es, r3)))
      | _ => none
    let sign : Int := if neg then -1 else 1
    match fracDigits, expPart with
    | [], none => .ok (.jint (sign * digitsToInt intDigits), rest2)
    | fs, none =>
      .ok (.jfloat ⟨sign * digitsToInt (intDigits ++ fs), -(fs.length : Int)⟩, rest2)
    | fs, some (e, rest3) =>
      .ok (.jfloat ⟨sign * digitsToInt (intDigits ++ fs), e - (fs.length : Int)⟩, rest3)

mutual

/-- A JSON value at the head of the input (no leading whitespace). -/
def parseJson : Nat → List Char → Except String (JsonVal × List Char)
  | 0, _ => .error "Out of fuel"
  | _ + 1, [] => .error "Expecting value"
  | fuel + 1, c :: rest =>
    if c = '{' then parseObjFirst fuel (skipWs rest) []
    else if c = '[' then parseArrFirst fuel (skipWs rest)
    else if c = '"' then
      (parseStringBody rest).map (fun (s, t) => (.jstr ⟨s⟩, t))
    else if c = 't' then
      match rest with
      | 'r' :: 'u' :: 'e' :: r => .ok (.jbool true, r)
      | _ => .error "Expecting value"
    else if c = 'f' then
      match rest with
      | 'a' :: 'l' :: 's' :: 'e' :: r => .ok (.jbool false, r)
      | _ => .error "Expecting value"
    else if c = 'n' then
      match rest with
      | 'u' :: 'l' :: 'l' :: r => .ok (.jnull, r)
      | _ => .error "Expecting value"
    else parseNumber (c :: rest)

/-- Object members after `{` + whitespace: either `}` or the first member. -/
def parseObjFirst (fuel : Nat) (cs : List Char) (acc : List (String × JsonVal)) :
    Except String (JsonVal × List Char) :=
  match fuel with
  | 0 => .error "Out of fuel"
  | fuel + 1 =>
    match cs with
    | '}' :: r => .ok (.jobj acc, r)
    | _ => parseMember fuel cs acc

/-- One `"key": value` member, then `,` for more or `}` to close. -/
def parseMember (fuel : Nat) (cs : List Char) (acc : List (String × JsonVal)) :
    Except String (JsonVal × List Char) :=
  match fuel with
  | 0 => .error "Out of fuel"
  | fuel + 1 =>
    match cs with
    | '"' :: r =>
      match parseStringBody r with
      | .error e => .error e
      | .ok (key, r2) =>
        match skipWs r2 with
        | ':' :: r3 =>
          match parseJson fuel (skipWs r3) with
          | .error e => .error e
          | .ok (v, r4) =>
            let acc' := dictInsert acc ⟨key⟩ v
            match skipWs r4 with
            | ',' :: r5 => parseMember fuel (skipWs r5) acc'
            | '}' :: r5 => .ok (.jobj acc', r5)
            | _ => .error "Expecting , delimiter"
        | _ => .error "Expecting : delimiter"
    | _ => .error "Expecting property name enclosed in double quotes"

/-- Array elements after `[` + whitespace: either `]` or the first element. -/
def parseArrFirst (fuel : Nat) (cs : List Char) :
    Except String (JsonVal × List Char) :=
  match fuel with
  | 0 => .error "Out of fuel"
  | fuel + 1 =>
    match cs with
    | ']' :: r => .ok (.jarr [], r)
    | _ => parseElem fuel cs []

/-- One array element, then `,` for more or `]` to close. -/
def parseElem (fuel : Nat) (cs : List Char) (acc : List JsonVal) :
    Except String (JsonVal × List Char) :=
  match fuel with
  | 0 => .error "Out of fuel"
  | fuel + 1 =>
    match parseJson fuel cs with
    | .error e => .error e
    | .ok (v, r) =>
      match skipWs r with
      | ',' :: r2 => parseElem fuel (skipWs r2) (acc ++ [v])
      | ']' :: r2 => .ok (.jarr (acc ++ [v]), r2)
      | _ => .error "Expecting , delimiter"

end

/-- Python `json.loads(s)`: the whole input must be one JSON value, with surrounding
whitespace allowed. -/
def json_loads (s : String) : Except String JsonVal :=
  match parseJson (2 * s.length + 2) (skipWs s.data) with
  | .error e => .error e
  | .ok (v, rest) =>
    match skipWs rest with
    | [] => .ok v
    | _ => .error "Extra data"

/-! ### Hand-compiled regexes -/

/-- Generic `re.search`: try the anchored matcher at each position, leftmost
match wins. -/
def searchPos (f : List Char → Option α) : List Char → Option α
  | [] => none
  | c :: rest =>
    match f (c :: rest) with
    | some v => some v
    | none => searchPos f rest

/-- Boundary `\b` after the final (word) character of a match. -/
def boundaryAfter : List Char → Bool
  | [] => true
  | c :: _ => !isWordChar c

/-- Regex `\b(m\d+(?:\.\d+)?)\b` anchored at the current position; `prevWord` says
whether the preceding character is a word character (for the leading `\b`). -/
def threadAt (prevWord : Bool) (cs : List Char) : Option String :=
  match cs with
  | 'm' :: rest =>
    if prevWord then none
    else
      match digitsRun rest with
      | ([], _) => none
      | (ds, rest2) =>
        match rest2 with
        | '.' :: rest3 =>
          (match digitsRun rest3 with
           | ([], _) => if boundaryAfter rest2 then some ⟨'m' :: ds⟩ else none
           | (ds2, rest4) =>
             if boundaryAfter rest4 then some ⟨'m' :: ds ++ '.' :: ds2⟩
             else if boundaryAfter rest2 then some ⟨'m' :: ds⟩ else none)
        | _ => if boundaryAfter rest2 then some ⟨'m' :: ds⟩ else none
  | _ => none

/-- Python `re.search(r'\b(m\d+(?:\.\d+)?)\b', text)`: leftmost match, tracking the
previous character for the leading word boundary. -/
def threadSearch (prevWord : Bool) : List Char → Option String
  | [] => none
  | c :: rest =>
    match threadAt prevWord (c :: rest) with
    | some s => some s
    | none => threadSearch (isWordChar c) rest

def startsWithAny (cs : List Char) (ws : List String) : Bool :=
  ws.any (fun w => w.data.isPrefixOf cs)

/-- Regex `(\d+)\s*(?:x\s*)?(?:holes?|threaded|tapped)` anchored here (the pattern
ends at the alternation, so matching the prefix `hole` suffices for
`holes?`). -/
def countPat1At (cs : List Char) : Option Int :=
  match digitsRun cs with
  | ([], _) => none
  | (ds, rest) =>
    let r1 := skipWs rest
    if startsWithAny r1 ["hole", "threaded", "tapped"] then some (digitsToInt ds)
    else
      match r1 with
      | 'x' :: r2 =>
        if startsWithAny (skipWs r2) ["hole", "threaded", "tapped"] then
          some (digitsToInt ds)
        else none
      | _ => none

/-- Regex `(?:add|create|make)\s+(\d+)` anchored here. -/
def countPat2At (cs : List Char) : Option Int :=
  let afterKw : Option (List Char) :=
    if "add".data.isPrefixOf cs then some (cs.drop 3)
    else if "create".data.isPrefixOf cs then some (cs.drop 6)
    else if "make".data.isPrefixOf cs then some (cs.drop 4)
    else none
  match afterKw with
  | none => none
  | some r =>
    match r with
    | c :: _ =>
      if isWs c then
        match digitsRun (skipWs r) with
        | ([], _) => none
        | (ds, _) => some (digitsToInt ds)
      else none
    | [] => none

/-- Regex `count\s*[:=]?\s*(\d+)` anchored here. -/
def countPat3At (cs : List Char) : Option Int :=
  if "count".data.isPrefixOf cs then
    let r1 := skipWs (cs.drop 5)
    let r2 := match r1 with
      | ':' :: r => skipWs r
      | '=' :: r => skipWs r
      | _ => r1
    match digitsRun r2 with
    | ([], _) => none
    | (ds, _) => some (digitsToInt ds)
  else none

/-- Regex `(\d+)\s*(?:of|x)\s*(?:m\d+)` anchored here. -/
def countPat4At (cs : List Char) : Option Int :=
  match digitsRun cs with
  | ([], _) => none
  | (ds, rest) =>
    let r1 := skipWs rest
    let afterSep : Option (List Char) :=
      if "of".data.isPrefixOf r1 then some (r1.drop 2)
      else
        match r1 with
        | 'x' :: r => some r
        | _ => none
    match afterSep with
    | none => none
    | some r2 =>
      match skipWs r2 with
      | 'm' :: r3 => if (digitsRun r3).1.isEmpty then none else some (digitsToInt ds)
      | _ => none

/-- Regex `(\d+(?:\.\d+)?)` anchored here, as an exact decimal, with the rest. -/
def numberAt (cs : List Char) : Option (PyFloat × List Char) :=
  match digitsRun cs with
  | ([], _) => none
  | (ds, rest) =>
    match rest with
    | '.' :: r =>
      (match digitsRun r with
       | ([], _) => some (PyFloat.ofDigits ds [], rest)
       | (fs, r2) => some (PyFloat.ofDigits ds fs, r2))
    | _ => some (PyFloat.ofDigits ds [], rest)

/-- Regex `{name}\s*[:=]?\s*(\d+(?:\.\d+)?)\s*(?:mm|cm|m|in)?` anchored here (the
tail after the group is optional, so only the group matters). -/
def dimPat1At (name : String) (cs : List Char) : Option PyFloat :=
  if name.data.isPrefixOf cs then
    let r1 := skipWs (cs.drop name.length)
    let r2 := match r1 with
      | ':' :: r => skipWs r
      | '=' :: r => skipWs r
      | _ => r1
    (numberAt r2).map (·.1)
  else none

/-- Regex `(\d+(?:\.\d+)?)\s*(?:mm|cm|m|in)?\s*{name}` anchored here; the optional
unit is tried in alternation order with backtracking into the rest. -/
def dimPat2At (name : String) (cs : List Char) : Option PyFloat :=
  match numberAt cs with
  | none => none
  | some (v, rest) =>
    let r1 := skipWs rest
    let nameNext (r : List Char) : Bool := name.data.isPrefixOf (skipWs r)
    let ok :=
      ("mm".data.isPrefixOf r1 && nameNext (r1.drop 2)) ||
      ("cm".data.isPrefixOf r1 && nameNext (r1.drop 2)) ||
      ("m".data.isPrefixOf r1 && nameNext (r1.drop 1)) ||
      ("in".data.isPrefixOf r1 && nameNext (r1.drop 2)) ||
      nameNext r1
    if ok then some v else none

/-- Regex `{name}\s+(?:of\s+)?(\d+(?:\.\d+)?)\s*(?:mm|cm|m|in)?` anchored here. -/
def dimPat3At (name : String) (cs : List Char) : Option PyFloat :=
  if name.data.isPrefixOf cs then
    let r := cs.drop name.length
    match r with
    | c :: _ =>
      if isWs c then
        let r1 := skipWs r
        let viaOf : Option PyFloat :=
          if "of".data.isPrefixOf r1 then
            match r1.drop 2 with
            | c2 :: _ =>
              if isWs c2 then (numberAt (skipWs (r1.drop 2))).map (·.1) else none
            | [] => none
          else none
        match viaOf with
        | some v => some v
        | none => (numberAt r1).map (·.1)
      else none
    | [] => none
  else none

/-- Regex `(\d+(?:\.\d+)?)\s*(mm|cm|m|in|inch)` anchored here (group 1 only). -/
def bareNumUnitAt (cs : List Char) : Option PyFloat :=
  match numberAt cs with
  | none => none
  | some (v, rest) =>
    if startsWithAny (skipWs rest) ["mm", "cm", "m", "in", "inch"] then some v
    else none

/-! ### The extractor (`_extract_all_json`) -/

/-- Whitespace `\s*` then the literal closing fence; the whitespace run is maximal and
backtracking cannot help since a backtick is not whitespace. -/
def closeFence (cs : List Char) : Option (List Char) :=
  match skipWs cs with
  | '`' :: '`' :: '`' :: r => some r
  | _ => none

/-- Lazy `[^`]*?\}` followed by `\s*` and the closing fence: grow the content
minimally; a `}` that does not close the fence is ordinary (non-backtick)
content.  Returns (content including the final `}`, rest after the fence). -/
def lazyFenceBody : List Char → Option (List Char × List Char)
  | [] => none
  | '}' :: r =>
    (match closeFence r with
     | some r2 => some (['}'], r2)
     | none => (lazyFenceBody r).map (fun (s, t) => ('}' :: s, t)))
  | c :: r =>
    if c = '`' then none
    else (lazyFenceBody r).map (fun (s, t) => (c :: s, t))

/-- One attempt of ```` ```(?:json)?\s*(\{[^`]*?\})\s*``` ```` anchored at the
current position; returns (group 1, rest after the whole match). -/
def fenceAt (cs : List Char) : Option (String × List Char) :=
  match cs with
  | '`' :: '`' :: '`' :: r =>
    let r1 := match r with
      | 'j' :: 's' :: 'o' :: 'n' :: r2 => r2
      | _ => r
    (match skipWs r1 with
     | '{' :: r2 => (lazyFenceBody r2).map (fun (body, rest) => (⟨'{' :: body⟩, rest))
     | _ => none)
  | _ => none

/-- Python `re.findall(code_block_pattern, text, re.DOTALL)`: successive leftmost
non-overlapping matches, resuming after each match. -/
def fencedBlocks : Nat → List Char → List String
  | 0, _ => []
  | _, [] => []
  | fuel + 1, c :: tail =>
    match fenceAt (c :: tail) with
    | some (grp, rest) => grp :: fencedBlocks fuel rest
    | none => fencedBlocks fuel tail

/-- Python `text[a : i + 1]`. -/
def sliceStr (t : List Char) (a i : Nat) : String := ⟨(t.drop a).take (i + 1 - a)⟩

/-- The balanced-brace scan of `_extract_all_json` (pattern 2): `t` is the
whole text, the loop walks `rest = t.drop i` tracking the brace counter, the
pending start index and the accumulated blocks (with their `in`-dedup). -/
def braceLoop (t : List Char) : List Char → Nat → Int → Option Nat → List String → List String
  | [], _, _, _, blocks => blocks
  | c :: rest, i, count, start, blocks =>
    if c = '{' then
      let start' := if count = 0 then some i else start
      braceLoop t rest (i + 1) (count + 1) start' blocks
    else if c = '}' then
      let count' := count - 1
      if count' = 0 then
        match start with
        | some a =>
          let json_str := sliceStr t a i
          let blocks' := if blocks.contains json_str then blocks else blocks ++ [json_str]
          braceLoop t rest (i + 1) count' none blocks'
        | none => braceLoop t rest (i + 1) count' start blocks
      else braceLoop t rest (i + 1) count' start blocks
    else braceLoop t rest (i + 1) count start blocks

/-! ### The parser class -/

/-- The state set up by `SolidWorksCommandParser.__init__`. -/
structure SolidWorksCommandParser where
  supported_actions : List String
  supported_types : List String
  thread_sizes : List (String × PyFloat)

/-- Python `SolidWorksCommandParser()` with the `__init__` constants. -/
def defaultParser : SolidWorksCommandParser where
  supported_actions :=
    ["create_feature", "create_part", "create", "add", "modify_feature",
     "modify", "edit", "analyze", "review", "delete", "remove"]
  supported_types :=
    ["box", "rectangle", "rectangular", "block", "cube",
     "cylinder", "cylindrical", "rod", "circle",
     "hole", "simple_hole",
     "threaded_hole", "tapped_hole",
     "counterbore", "counterbore_hole",
     "countersink", "countersink_hole",
     "fillet", "round",
     "chamfer",
     "extrusion", "extrude", "boss",
     "cut", "cut_extrude", "pocket",
     "pattern", "linear_pattern",
     "circular_pattern",
     "shell",
     "dimension", "size", "length",
     "scale"]
  thread_sizes :=
    [("M2", ⟨16, -1⟩), ("M2.5", ⟨205, -2⟩), ("M3", ⟨25, -1⟩), ("M4", ⟨33, -1⟩),
     ("M5", ⟨42, -1⟩), ("M6", ⟨50, -1⟩), ("M8", ⟨68, -1⟩), ("M10", ⟨85, -1⟩),
     ("M12", ⟨102, -1⟩), ("M14", ⟨120, -1⟩), ("M16", ⟨140, -1⟩), ("M20", ⟨175, -1⟩)]

/-- Method `_extract_all_json`: the fenced-block pass extends `json_blocks` first,
then the brace-balance pass appends unseen spans. -/
def _extract_all_json (_p : SolidWorksCommandParser) (text : String) : List String :=
  let cs := text.data
  let json_blocks := fencedBlocks cs.length cs
  braceLoop cs cs 0 0 none json_blocks

/-- Python `str(type(v))`-style name for the `AttributeError` message of
`"<non-str>".lower()`. -/
def pyTypeName : JsonVal → String
  | .jnull => "NoneType"
  | .jbool _ => "bool"
  | .jint _ => "int"
  | .jfloat _ => "float"
  | .jstr _ => "str"
  | .jarr _ => "list"
  | .jobj _ => "dict"

/-- Method `_validate_command`.  A non-`dict` value is rejected; a `dict` whose
`action` value is not a string makes `.lower()` raise `AttributeError`
(modelled as `.error` with the Python exception text). -/
def _validate_command (p : SolidWorksCommandParser) (command : JsonVal) :
    Except String Bool :=
  match command with
  | .jobj fields =>
    (match dictGetD fields "action" (.jstr "") with
     | .jstr s =>
       let action := pyLower s
       if action = "" then .ok false
       else if !(p.supported_actions.contains action) then
         if p.supported_actions.any
             (fun supported => strContains action supported || strContains supported action) then
           .ok true
         else .ok false
       else .ok true
     | v => .error ("\x27" ++ pyTypeName v ++ "\x27 object has no attribute \x27lower\x27"))
  | _ => .ok false

/-- Python truthiness of an `Optional[float]`. -/
def truthyOpt (o : Option PyFloat) : Bool :=
  match o with
  | some v => !v.isZero
  | none => false

/-- Python `a or b` on two `Optional[float]`s. -/
def orFloat (a b : Option PyFloat) : Option PyFloat :=
  match a with
  | some v => if v.isZero then b else some v
  | none => b

/-- Method `_extract_single_dimension`: the three named patterns in order (skipped
when `name` is empty), then the bare number-with-unit fallback. -/
def _extract_single_dimension (_p : SolidWorksCommandParser) (text name : String) :
    Option PyFloat :=
  let cs := (pyLower text).data
  let named : Option PyFloat :=
    if name ≠ "" then
      match searchPos (dimPat1At name) cs with
      | some v => some v
      | none =>
        match searchPos (dimPat2At name) cs with
        | some v => some v
        | none => searchPos (dimPat3At name) cs
    else none
  match named with
  | some v => some v
  | none => searchPos bareNumUnitAt cs

/-- Method `_extract_count`: the four count patterns in order, default 1. -/
def _extract_count (_p : SolidWorksCommandParser) (text : String) : Int :=
  let cs := (pyLower text).data
  match searchPos countPat1At cs with
  | some n => n
  | none =>
    match searchPos countPat2At cs with
    | some n => n
    | none =>
      match searchPos countPat3At cs with
      | some n => n
      | none =>
        match searchPos countPat4At cs with
        | some n => n
        | none => 1

def isXsep (c : Char) : Bool := c = 'x' || c = 'X' || c = '×'

/-- Optional unit `(?:mm|cm|m|in)?` in alternation order, backtracking into
the continuation `k`. -/
def tryUnitOpt (r : List Char) (k : List Char → Option α) : Option α :=
  (if "mm".data.isPrefixOf r then k (r.drop 2) else none) <|>
  (if "cm".data.isPrefixOf r then k (r.drop 2) else none) <|>
  (if "m".data.isPrefixOf r then k (r.drop 1) else none) <|>
  (if "in".data.isPrefixOf r then k (r.drop 2) else none) <|>
  k r

/-- The `A x B (x C)?` dimension regex anchored here: groups 1, 2 and the
optional group 3. -/
def dims3At (cs : List Char) : Option (PyFloat × PyFloat × Option PyFloat) :=
  match numberAt cs with
  | none => none
  | some (n1, rest1) =>
    tryUnitOpt (skipWs rest1) (fun r =>
      match skipWs r with
      | c :: r2 =>
        if isXsep c then
          match numberAt (skipWs r2) with
          | none => none
          | some (n2, rest2) =>
            tryUnitOpt (skipWs rest2) (fun r3 =>
              let third : Option PyFloat :=
                match skipWs r3 with
                | c2 :: r4 =>
                  if isXsep c2 then
                    match numberAt (skipWs r4) with
                    | some (n3, _) => some n3
                    | none => none
                  else none
                | [] => none
              some (n1, n2, third))
        else none
      | [] => none)

/-- Method `_extract_dimensions`: the multi-value `AxBxC` pattern (on the original
text), else named width/height/depth/length extraction. -/
def _extract_dimensions (p : SolidWorksCommandParser) (text : String) :
    Option (List (String × JsonVal)) :=
  match searchPos dims3At text.data with
  | some (w, h, dOpt) =>
    let d := dOpt.getD w
    let lower := pyLower text
    let unit :=
      if strContains lower "cm" then "cm"
      else if strContains lower " m " || lower.endsWith " m" then "m"
      else if strContains lower "in" || strContains lower "inch" then "in"
      else "mm"
    some [("width", .jfloat w), ("height", .jfloat h), ("depth", .jfloat d),
          ("units", .jstr unit)]
  | none =>
    let step (dims : List (String × JsonVal)) (nm : String) : List (String × JsonVal) :=
      match _extract_single_dimension p text nm with
      | some v =>
        if v.isZero then dims
        else if nm = "length" then dictInsert dims "width" (.jfloat v)
        else dictInsert dims nm (.jfloat v)
      | none => dims
    let dims := step (step (step (step [] "width") "height") "depth") "length"
    if dims.isEmpty then none
    else some (dictSetDefault dims "units" (.jstr "mm"))

/-- Method `_extract_cylinder_dimensions`. -/
def _extract_cylinder_dimensions (p : SolidWorksCommandParser) (text : String) :
    List (String × JsonVal) :=
  let diameter := _extract_single_dimension p text "diameter"
  let radius := _extract_single_dimension p text "radius"
  let height := PyNum.orDefault
    (orFloat (_extract_single_dimension p text "height")
             (_extract_single_dimension p text "length")) (.pint 100)
  let dia : PyNum :=
    if truthyOpt radius && !truthyOpt diameter then
      .pfloat ((radius.getD ⟨0, 0⟩).mulInt 2)
    else if !truthyOpt diameter then .pint 50
    else .pfloat (diameter.getD ⟨0, 0⟩)
  [("diameter", dia.toJson), ("height", height.toJson), ("units", .jstr "mm")]

/-- Method `_infer_command`: the ordered keyword-rule cascade of lines 175–357. -/
def _infer_command (p : SolidWorksCommandParser) (text : String) : Option JsonVal :=
  let text_lower := pyLower text
  let thread_match := threadSearch false text_lower.data
  if thread_match.isSome &&
     containsAny text_lower ["hole", "threaded", "tap", "thread"] then
    let thread_size := pyUpper (thread_match.getD "")
    let count := _extract_count p text
    let depth := PyNum.orDefault (_extract_single_dimension p text "depth") (.pint 15)
    some (.jobj
      [("action", .jstr "create"),
       ("type", .jstr "threaded_hole"),
       ("parameters", .jobj
         [("thread_size", .jstr thread_size),
          ("depth", depth.toJson),
          ("count", .jint count),
          ("units", .jstr "mm")]),
       ("description", .jstr
         ("Create " ++ toString count ++ "x " ++ thread_size ++ " threaded hole(s)"))])
  else
    let comparative := containsAny text_lower
      ["longer", "shorter", "wider", "narrower", "thicker", "thinner",
       "taller", "higher", "deeper"]
    let delta0 := _extract_single_dimension p text ""
    if comparative && truthyOpt delta0 then
      let d := delta0.getD ⟨0, 0⟩
      let delta :=
        if containsAny text_lower ["shorter", "narrower", "thinner", "smaller"] then
          d.abs.neg
        else d.abs
      some (.jobj
        [("action", .jstr "modify"),
         ("type", .jstr "dimension"),
         ("parameters", .jobj
           [("delta", .jfloat delta), ("units", .jstr "mm")]),
         ("description", .jstr
           ("Modify dimension by " ++ delta.pyFormatPlus1f ++ "mm"))])
    else if containsAny text_lower ["box", "cube", "rectangular", "block", "plate"] then
      let dimensions :=
        match _extract_dimensions p text with
        | some dims => dims
        | none =>
          [("width", .jint 100), ("height", .jint 100), ("depth", .jint 50),
           ("units", .jstr "mm")]
      some (.jobj
        [("action", .jstr "create"), ("type", .jstr "box"),
         ("parameters", .jobj dimensions),
         ("description", .jstr "Create box")])
    else if containsAny text_lower ["cylinder", "rod", "tube", "pipe", "round"] then
      some (.jobj
        [("action", .jstr "create"), ("type", .jstr "cylinder"),
         ("parameters", .jobj (_extract_cylinder_dimensions p text)),
         ("description", .jstr "Create cylinder")])
    else if containsAny text_lower ["hole", "drill", "bore"] && !thread_match.isSome then
      let diameter := PyNum.orDefault (_extract_single_dimension p text "diameter") (.pint 10)
      let depth := PyNum.orDefault (_extract_single_dimension p text "depth") (.pint 20)
      let through := strContains text_lower "through"
      some (.jobj
        [("action", .jstr "create"), ("type", .jstr "hole"),
         ("parameters", .jobj
           [("diameter", diameter.toJson), ("depth", depth.toJson),
            ("through_all", .jbool through), ("units", .jstr "mm")]),
         ("description", .jstr ("Create Ø" ++ diameter.pyStr ++ "mm hole"))])
    else if containsAny text_lower ["fillet", "round", "radius"] &&
            !strContains text_lower "corner" then
      let radius := PyNum.orDefault
        (orFloat (_extract_single_dimension p text "radius")
                 (_extract_single_dimension p text "")) (.pint 5)
      some (.jobj
        [("action", .jstr "create"), ("type", .jstr "fillet"),
         ("parameters", .jobj
           [("radius", radius.toJson), ("units", .jstr "mm")]),
         ("description", .jstr ("Create R" ++ radius.pyStr ++ "mm fillet"))])
    else if strContains text_lower "chamfer" then
      let distance := PyNum.orDefault
        (orFloat (_extract_single_dimension p text "distance")
                 (_extract_single_dimension p text "")) (.pint 2)
      some (.jobj
        [("action", .jstr "create"), ("type", .jstr "chamfer"),
         ("parameters", .jobj
           [("distance", distance.toJson), ("angle", .jint 45),
            ("units", .jstr "mm")]),
         ("description", .jstr ("Create " ++ distance.pyStr ++ "mm chamfer"))])
    else if strContains text_lower "shell" || strContains text_lower "hollow" then
      let thickness := PyNum.orDefault
        (orFloat (_extract_single_dimension p text "thickness")
                 (_extract_single_dimension p text "wall")) (.pint 2)
      some (.jobj
        [("action", .jstr "create"), ("type", .jstr "shell"),
         ("parameters", .jobj
           [("thickness", thickness.toJson), ("units", .jstr "mm")]),
         ("description", .jstr
           ("Create shell with " ++ thickness.pyStr ++ "mm wall"))])
    else if containsAny text_lower ["extrude", "extrusion", "boss"] then
      let depth := PyNum.orDefault
        (orFloat (_extract_single_dimension p text "depth")
                 (_extract_single_dimension p text "")) (.pint 25)
      some (.jobj
        [("action", .jstr "create"), ("type", .jstr "extrusion"),
         ("parameters", .jobj
           [("depth", depth.toJson), ("units", .jstr "mm")]),
         ("description", .jstr ("Create extrusion " ++ depth.pyStr ++ "mm"))])
    else if containsAny text_lower ["cut", "pocket", "remove"] then
      let depth := PyNum.orDefault
        (orFloat (_extract_single_dimension p text "depth")
                 (_extract_single_dimension p text "")) (.pint 10)
      let through := strContains text_lower "through"
      some (.jobj
        [("action", .jstr "create"), ("type", .jstr "cut"),
         ("parameters", .jobj
           [("depth", depth.toJson), ("through_all", .jbool through),
            ("units", .jstr "mm")]),
         ("description", .jstr "Create cut")])
    else if strContains text_lower "pattern" then
      let count := _extract_count p text
      let spacing := PyNum.orDefault (_extract_single_dimension p text "spacing") (.pint 20)
      if strContains text_lower "circular" || strContains text_lower "radial" then
        some (.jobj
          [("action", .jstr "create"), ("type", .jstr "circular_pattern"),
           ("parameters", .jobj
             [("count", .jint count), ("angle", .jint 360)]),
           ("description", .jstr
             ("Create circular pattern with " ++ toString count ++ " instances"))])
      else
        some (.jobj
          [("action", .jstr "create"), ("type", .jstr "linear_pattern"),
           ("parameters", .jobj
             [("count_x", .jint count), ("count_y", .jint 1),
              ("spacing_x", spacing.toJson), ("spacing_y", spacing.toJson),
              ("units", .jstr "mm")]),
           ("description", .jstr
             ("Create linear pattern " ++ toString count ++ "x1"))])
    else none

/-! ### `parse_response` -/

/-- The result dictionary of `parse_response`.  Optional dictionary keys are
modelled as `Option` (`error`) and a `Bool` (`inferred`, key absent ↦
`false`); `description` is whatever `.get("description", "")` returns, so it
is a `JsonVal`. -/
structure ParseResult where
  success : Bool
  command : Option JsonVal
  commands : List JsonVal
  command_count : Nat
  description : JsonVal
  raw_response : String
  error : Option String
  inferred : Bool

/-- The `for json_str in json_blocks` loop of `parse_response`: malformed
JSON is skipped (`except json.JSONDecodeError: continue`); a validation
exception propagates at once, abandoning the remaining blocks. -/
def collectValid (p : SolidWorksCommandParser) : List String → Except String (List JsonVal)
  | [] => .ok []
  | json_str :: rest =>
    match json_loads json_str with
    | .error _ => collectValid p rest
    | .ok command =>
      match _validate_command p command with
      | .error e => .error e
      | .ok true => (collectValid p rest).map (fun l => command :: l)
      | .ok false => collectValid p rest

/-- The body of `parse_response`'s `try:` block. -/
def parse_response_core (p : SolidWorksCommandParser) (ai_response : String) :
    Except String ParseResult :=
  match collectValid p (_extract_all_json p ai_response) with
  | .error e => .error e
  | .ok valid_commands =>
    match valid_commands with
    | first :: _ =>
      .ok { success := true, command := some first, commands := valid_commands,
            command_count := valid_commands.length,
            description :=
              (match first with
               | .jobj fields => dictGetD fields "description" (.jstr "")
               | _ => .jstr ""),
            raw_response := ai_response, error := none, inferred := false }
    | [] =>
      match _infer_command p ai_response with
      | some inferred =>
        .ok { success := true, command := some inferred, commands := [inferred],
              command_count := 1, description := .jstr ai_response,
              raw_response := ai_response, error := none, inferred := true }
      | none =>
        .ok { success := false, command := none, commands := [], command_count := 0,
              description := .jstr ai_response, raw_response := ai_response,
              error := some "Could not parse command from response", inferred := false }

/-- Method `parse_response`: the `try`/`except Exception` wrapper around the body. -/
def parse_response (p : SolidWorksCommandParser) (ai_response : String) : ParseResult :=
  match parse_response_core p ai_response with
  | .ok r => r
  | .error e =>
    { success := false, command := none, commands := [], command_count := 0,
      description := .jstr ai_response, raw_response := ai_response,
      error := some ("Parsing error: " ++ e), inferred := false }

/-! ### Auxiliary characterizations used by the theorems -/

/-- A parsed candidate on which `_validate_command` cannot raise: its
`action` value (counting an absent key, whose default is `""`) is a string.
Non-dicts are safe (they are rejected before `.lower()` is reached). -/
def actionFieldSafe : JsonVal → Bool
  | .jobj fields =>
    (match dictGetD fields "action" (.jstr "") with
     | .jstr _ => true
     | _ => false)
  | _ => true

/-- All of a block list's well-formed JSON payloads are `actionFieldSafe`. -/
def blocksSafe (blocks : List String) : Bool :=
  blocks.all (fun b =>
    match json_loads b with
    | .ok v => actionFieldSafe v
    | .error _ => true)

/-- The per-candidate filter of `parse_response`'s loop: parse, drop
malformed JSON, keep exactly the validator-passing values. -/
def keepValid (p : SolidWorksCommandParser) (json_str : String) : Option JsonVal :=
  match json_loads json_str with
  | .ok command =>
    (match _validate_command p command with
     | .ok true => some command
     | _ => none)
  | .error _ => none

/-- The brace-counter delta of one character. -/
def braceDelta (c : Char) : Int := if c = '{' then 1 else if c = '}' then -1 else 0

/-- The running brace counter of `_extract_all_json`'s scan after the first
`k` characters. -/
def depthAt (t : List Char) (k : Nat) : Int := ((t.take k).map braceDelta).sum

/-! ## Theorems -/

/-- C1: for every input string, `parse_response` returns a result in which
`success` is true iff the `commands` list is non-empty, and `command` is
`commands[0]` when that list is non-empty and absent (`none`) otherwise — in
particular on both failure paths (no command found, internal exception)
`command` is absent and `commands` is empty. -/
theorem C1_parse_result_invariant (p : SolidWorksCommandParser) (s : String) :
    ((parse_response p s).success = true ↔ (parse_response p s).commands ≠ []) ∧
    (parse_response p s).command = (parse_response p s).commands.head? := by
  have hcore : ∀ r, parse_response_core p s = .ok r →
      ((r.success = true ↔ r.commands ≠ []) ∧ r.command = r.commands.head?) := by
    intro r h
    unfold parse_response_core at h
    cases hcv : collectValid p (_extract_all_json p s) <;> rw [hcv] at h
    · exact Except.noConfusion h
    case ok valid =>
      cases valid with
      | nil =>
        cases hinf : _infer_command p s <;> rw [hinf] at h <;>
          (injection h with h; subst h; simp)
      | cons f rest =>
        injection h with h; subst h; simp
  cases hc : parse_response_core p s with
  | error e =>
    unfold parse_response
    rw [hc]
    simp
  | ok r =>
    unfold parse_response
    rw [hc]
    exact hcore r hc

/-- C7: any internal exception of `parse_response`'s body is caught at the
top level and converted into a structurally valid failure result: `success`
false, no command, empty `commands`, and the exception text embedded in
`error` after the fixed `"Parsing error: "` prefix. -/
theorem C7_internal_exception_recovered (p : SolidWorksCommandParser) (s e : String)
    (h : parse_response_core p s = .error e) :
    parse_response p s =
      { success := false, command := none, commands := [], command_count := 0,
        description := .jstr s, raw_response := s,
        error := some ("Parsing error: " ++ e), inferred := false } := by
  unfold parse_response
  rw [h]

/-- Witness for C7: the input `{"action": 5}` makes `_validate_command` call
`.lower()` on an `int`, and the resulting `AttributeError` text reaches the
caller inside a well-formed failure result. -/
theorem C7_internal_exception_recovered_witness :
    parse_response defaultParser "\x7b\"action\": 5\x7d" =
      { success := false, command := none, commands := [], command_count := 0,
        description := .jstr "\x7b\"action\": 5\x7d", raw_response := "\x7b\"action\": 5\x7d",
        error := some "Parsing error: \x27int\x27 object has no attribute \x27lower\x27",
        inferred := false } :=
  C7_internal_exception_recovered defaultParser "\x7b\"action\": 5\x7d"
    "\x27int\x27 object has no attribute \x27lower\x27" (by rfl)

/-- C2 (the code's actual behavior at the spec's scenario input): for
`"Add 10 M4 threaded holes"` the inferred threaded-hole command has
`count = 4` — the count regex `(\d+)\s*(?:x\s*)?(?:holes?|threaded|tapped)`
first matches the `4` of `M4` before `threaded` — and `depth = 10.0` — the
bare number-with-unit fallback reads `10 M` as `10` with unit `m` — not the
claimed `count = 10` and default `depth = 15`. -/
theorem C2_code_behavior_at_scenario_input :
    parse_response defaultParser "Add 10 M4 threaded holes" =
      { success := true,
        command := some (.jobj
          [("action", .jstr "create"),
           ("type", .jstr "threaded_hole"),
           ("parameters", .jobj
             [("thread_size", .jstr "M4"),
              ("depth", .jfloat ⟨10, 0⟩),
              ("count", .jint 4),
              ("units", .jstr "mm")]),
           ("description", .jstr "Create 4x M4 threaded hole(s)")]),
        commands := [.jobj
          [("action", .jstr "create"),
           ("type", .jstr "threaded_hole"),
           ("parameters", .jobj
             [("thread_size", .jstr "M4"),
              ("depth", .jfloat ⟨10, 0⟩),
              ("count", .jint 4),
              ("units", .jstr "mm")]),
           ("description", .jstr "Create 4x M4 threaded hole(s)")]],
        command_count := 1,
        description := .jstr "Add 10 M4 threaded holes",
        raw_response := "Add 10 M4 threaded holes",
        error := none, inferred := true } := by
  rfl

/-- C3 counterexample: in
`{"action": "add"} ```json {"action": "delete"} ``` ` the bare `add` object
appears first in the text, but the fenced-block pass runs before the brace
scan, so `commands` is `[delete, add]` — not ordered by first appearance. -/
theorem C3_counterexample_fenced_after_bare :
    (parse_response defaultParser
        "\x7b\"action\": \"add\"\x7d ```json\n\x7b\"action\": \"delete\"\x7d\n```").commands =
      [.jobj [("action", .jstr "delete")], .jobj [("action", .jstr "add")]] ∧
    ([JsonVal.jobj [("action", .jstr "delete")], .jobj [("action", .jstr "add")]] ≠
      [JsonVal.jobj [("action", .jstr "add")], .jobj [("action", .jstr "delete")]]) := by
  constructor
  · rfl
  · intro h
    simp [List.cons.injEq] at h

/-- C3 amended: whenever the candidate loop completes without an exception
and keeps a non-empty list `valid` (all fenced-block candidates in appearance
order, then bare balanced-brace spans in appearance order with textual
duplicates collapsed, each parsed and validator-passing), `parse_response`
succeeds with `commands = valid` and `command_count = |valid|`; appearance
order across the two passes is not restored. -/
theorem C3_amended_commands_are_kept_candidates (s : String) (valid : List JsonVal)
    (h : collectValid defaultParser (_extract_all_json defaultParser s) = .ok valid)
    (hne : valid ≠ []) :
    (parse_response defaultParser s).success = true ∧
    (parse_response defaultParser s).commands = valid ∧
    (parse_response defaultParser s).command_count = valid.length := by
  unfold parse_response parse_response_core
  rw [h]
  cases valid with
  | nil => exact absurd rfl hne
  | cons f rest => exact ⟨rfl, rfl, rfl⟩

/-- Witness for the amended C3, at the counterexample input. -/
theorem C3_amended_commands_witness :
    (parse_response defaultParser
        "\x7b\"action\": \"add\"\x7d ```json\n\x7b\"action\": \"delete\"\x7d\n```").success = true ∧
    (parse_response defaultParser
        "\x7b\"action\": \"add\"\x7d ```json\n\x7b\"action\": \"delete\"\x7d\n```").commands =
      [.jobj [("action", .jstr "delete")], .jobj [("action", .jstr "add")]] ∧
    (parse_response defaultParser
        "\x7b\"action\": \"add\"\x7d ```json\n\x7b\"action\": \"delete\"\x7d\n```").command_count = 2 :=
  C3_amended_commands_are_kept_candidates
    "\x7b\"action\": \"add\"\x7d ```json\n\x7b\"action\": \"delete\"\x7d\n```"
    [.jobj [("action", .jstr "delete")], .jobj [("action", .jstr "add")]]
    (by rfl) (List.cons_ne_nil _ _)

/-- C4 counterexample: `"make it longer"` contains the comparative `longer`
and does not match the threaded-hole rule, yet no dimension-modify command is
emitted — the rule also requires a bare number-with-unit (`delta` truthy), so
inference falls through all rules and the parse fails. -/
theorem C4_counterexample_comparative_without_number :
    strContains (pyLower "make it longer") "longer" = true ∧
    ((threadSearch false (pyLower "make it longer").data).isSome &&
      containsAny (pyLower "make it longer") ["hole", "threaded", "tap", "thread"]) = false ∧
    _infer_command defaultParser "make it longer" = none ∧
    (parse_response defaultParser "make it longer").success = false :=
  ⟨rfl, rfl, rfl, rfl⟩

/-- C4 amended: when no rule before it fires, the first matching rule wins
with no later rule tried; in particular every text that contains a
comparative adjective, does not match the threaded-hole rule, and yields a
truthy (non-`None`, non-zero) bare number-with-unit extraction produces the
dimension-modify command with the signed delta. -/
theorem C4_amended_comparative_rule (text : String) (d : PyFloat)
    (hthread : ((threadSearch false (pyLower text).data).isSome &&
        containsAny (pyLower text) ["hole", "threaded", "tap", "thread"]) = false)
    (hcomp : containsAny (pyLower text)
        ["longer", "shorter", "wider", "narrower", "thicker", "thinner",
         "taller", "higher", "deeper"] = true)
    (hd : _extract_single_dimension defaultParser text "" = some d)
    (hdz : d.isZero = false) :
    _infer_command defaultParser text = some (.jobj
      [("action", .jstr "modify"),
       ("type", .jstr "dimension"),
       ("parameters", .jobj
         [("delta", .jfloat (if containsAny (pyLower text)
              ["shorter", "narrower", "thinner", "smaller"] then d.abs.neg else d.abs)),
          ("units", .jstr "mm")]),
       ("description", .jstr
         ("Modify dimension by " ++
          (if containsAny (pyLower text)
              ["shorter", "narrower", "thinner", "smaller"] then d.abs.neg
           else d.abs).pyFormatPlus1f ++ "mm"))]) := by
  unfold _infer_command
  simp [hthread, hcomp, hd, truthyOpt, hdz]

/-- Witness for the amended C4: `"Make it 10mm longer"` yields the
dimension-modify command with delta `+10.0`. -/
theorem C4_amended_comparative_rule_witness :
    _infer_command defaultParser "Make it 10mm longer" = some (.jobj
      [("action", .jstr "modify"),
       ("type", .jstr "dimension"),
       ("parameters", .jobj
         [("delta", .jfloat ⟨10, 0⟩), ("units", .jstr "mm")]),
       ("description", .jstr "Modify dimension by +10.0mm")]) := by
  have h := C4_amended_comparative_rule "Make it 10mm longer" ⟨10, 0⟩
    (by rfl) (by rfl) (by rfl) (by rfl)
  simpa using h

/-- C5 counterexample: the action string `"deleting"` does not pass
validation — `"delete"` is not a substring of `"deleting"` (the final `e`
differs) and no other supported action matches, so the code returns false
where the claim says it passes. -/
theorem C5_counterexample_deleting_rejected :
    _validate_command defaultParser (.jobj [("action", .jstr "deleting")]) = .ok false := by
  rfl

/-- C5 amended: the validator accepts exactly the object-shaped values whose
(possibly defaulted) `action` field is a string that lowercases to a
non-empty string equal to, containing, or contained in some supported action;
`"deletes"` passes, while `"deleting"` (contrary to the claim's example) and
`"teleport"` both fail. -/
theorem C5_amended_validator_characterization :
    (∀ j : JsonVal, _validate_command defaultParser j = .ok true ↔
      (∃ fields s, j = .jobj fields ∧
        dictGetD fields "action" (.jstr "") = .jstr s ∧
        pyLower s ≠ "" ∧
        (pyLower s ∈ defaultParser.supported_actions ∨
         ∃ sup ∈ defaultParser.supported_actions,
           strContains (pyLower s) sup = true ∨ strContains sup (pyLower s) = true))) ∧
    _validate_command defaultParser (.jobj [("action", .jstr "deletes")]) = .ok true ∧
    _validate_command defaultParser (.jobj [("action", .jstr "deleting")]) = .ok false ∧
    _validate_command defaultParser (.jobj [("action", .jstr "teleport")]) = .ok false := by
  refine ⟨?_, rfl, rfl, rfl⟩
  intro j
  constructor
  · intro h
    cases j with
    | jobj fields =>
      simp only [_validate_command] at h
      cases hv : dictGetD fields "action" (.jstr "") <;> simp only [hv] at h
      case jstr s =>
        refine ⟨fields, s, rfl, hv, ?_⟩
        split_ifs at h with h1 h2 h3
        · exact absurd h (by simp)
        · rcases List.any_eq_true.mp h3 with ⟨sup, hsup, hor⟩
          simp only [Bool.or_eq_true] at hor
          exact ⟨h1, Or.inr ⟨sup, hsup, hor⟩⟩
        · exact absurd h (by simp)
        · rw [Bool.not_eq_true', Bool.not_eq_false] at h2
          exact ⟨h1, Or.inl (by simpa using h2)⟩
      all_goals exact Except.noConfusion h
    | jnull => exact absurd h (by simp [_validate_command])
    | jbool b => exact absurd h (by simp [_validate_command])
    | jint n => exact absurd h (by simp [_validate_command])
    | jfloat f => exact absurd h (by simp [_validate_command])
    | jstr s => exact absurd h (by simp [_validate_command])
    | jarr es => exact absurd h (by simp [_validate_command])
  · rintro ⟨fields, s, rfl, hget, hne, hor⟩
    simp only [_validate_command, hget]
    rw [if_neg hne]
    rcases hor with hmem | ⟨sup, hsup, hors⟩
    · rw [if_neg (by simp [hmem])]
    · by_cases hmem2 : pyLower s ∈ defaultParser.supported_actions
      · rw [if_neg (by simp [hmem2])]
      · rw [if_pos (by simp [hmem2]),
          if_pos (List.any_eq_true.mpr ⟨sup, hsup, by
            simpa only [Bool.or_eq_true] using hors⟩)]

/-- C6 counterexample: in `{"action": 5} {"action": "delete"}` the first
candidate's non-string `action` makes `_validate_command` raise, which aborts
the whole parse — the well-formed, validator-passing `delete` candidate is
lost, so a failing candidate is not isolated from the others. -/
theorem C6_counterexample_nonstring_action_aborts :
    (parse_response defaultParser "\x7b\"action\": 5\x7d \x7b\"action\": \"delete\"\x7d").success = false ∧
    (parse_response defaultParser "\x7b\"action\": 5\x7d \x7b\"action\": \"delete\"\x7d").commands = [] ∧
    json_loads "\x7b\"action\": \"delete\"\x7d" = .ok (.jobj [("action", .jstr "delete")]) ∧
    _validate_command defaultParser (.jobj [("action", .jstr "delete")]) = .ok true :=
  ⟨rfl, rfl, rfl, rfl⟩

/-- Predicate `actionFieldSafe` guarantees `_validate_command` returns instead of
raising. -/
theorem validate_total_of_safe (p : SolidWorksCommandParser) (v : JsonVal)
    (h : actionFieldSafe v = true) : ∃ b, _validate_command p v = .ok b := by
  cases v with
  | jobj fields =>
    simp only [actionFieldSafe] at h
    cases hv : dictGetD fields "action" (.jstr "") <;> rw [hv] at h <;>
      simp only [_validate_command, hv]
    case jstr s =>
      by_cases h1 : pyLower s = ""
      · exact ⟨false, by rw [if_pos h1]⟩
      · rw [if_neg h1]
        by_cases h2 : (!p.supported_actions.contains (pyLower s)) = true
        · rw [if_pos h2]
          by_cases h3 : (p.supported_actions.any fun supported =>
              strContains (pyLower s) supported || strContains supported (pyLower s)) = true
          · exact ⟨true, by rw [if_pos h3]⟩
          · exact ⟨false, by rw [if_neg h3]⟩
        · exact ⟨true, by rw [if_neg h2]⟩
    all_goals exact Bool.noConfusion h
  | jnull => exact ⟨false, rfl⟩
  | jbool b => exact ⟨false, rfl⟩
  | jint n => exact ⟨false, rfl⟩
  | jfloat f => exact ⟨false, rfl⟩
  | jstr s => exact ⟨false, rfl⟩
  | jarr es => exact ⟨false, rfl⟩

/-- On a block list whose well-formed payloads all have string (or absent)
`action` fields, the candidate loop completes and keeps exactly the
validator-passing candidates, in order: each malformed candidate and each
validation failure is dropped without affecting the rest. -/
theorem collectValid_eq_filterMap (p : SolidWorksCommandParser) :
    ∀ blocks : List String, blocksSafe blocks = true →
      collectValid p blocks = .ok (blocks.filterMap (keepValid p)) := by
  intro blocks hsafe
  induction blocks with
  | nil => rfl
  | cons b rest ih =>
    rw [blocksSafe, List.all_cons, Bool.and_eq_true] at hsafe
    obtain ⟨hb, hrest⟩ := hsafe
    have ihr := ih hrest
    rw [List.filterMap_cons]
    cases hload : json_loads b with
    | error e =>
      simp only [collectValid, hload, keepValid]
      exact ihr
    | ok v =>
      simp only [hload] at hb
      obtain ⟨bl, hbl⟩ := validate_total_of_safe p v hb
      cases bl with
      | true =>
        simp only [collectValid, hload, hbl, keepValid, ihr]
        rfl
      | false =>
        simp only [collectValid, hload, hbl, keepValid]
        exact ihr

/-- C6 amended: for every input all of whose well-formed JSON candidates
carry a string (or absent) `action` field, each candidate that fails
validation is excluded without affecting the other candidates and each
malformed-JSON candidate is dropped silently: the kept list is exactly the
per-candidate filter of the extracted blocks, and it becomes `commands`
whenever it is non-empty.  (Without the string-action restriction the claim
fails: a non-string `action` raises and aborts every candidate.) -/
theorem C6_amended_per_candidate_isolation (s : String)
    (hsafe : blocksSafe (_extract_all_json defaultParser s) = true) :
    collectValid defaultParser (_extract_all_json defaultParser s) =
      .ok ((_extract_all_json defaultParser s).filterMap (keepValid defaultParser)) ∧
    ((_extract_all_json defaultParser s).filterMap (keepValid defaultParser) ≠ [] →
      (parse_response defaultParser s).commands =
        (_extract_all_json defaultParser s).filterMap (keepValid defaultParser)) := by
  have hcv := collectValid_eq_filterMap defaultParser (_extract_all_json defaultParser s) hsafe
  refine ⟨hcv, fun hne => ?_⟩
  unfold parse_response parse_response_core
  rw [hcv]
  cases hfm : (_extract_all_json defaultParser s).filterMap (keepValid defaultParser) with
  | nil => exact absurd hfm hne
  | cons f rest => rfl

/-- Witness for the amended C6: one malformed candidate, one
unrecognized-action candidate and one good candidate — only the good one is
kept, and the other two are dropped independently. -/
theorem C6_amended_per_candidate_isolation_witness :
    collectValid defaultParser
      (_extract_all_json defaultParser
        "\x7b\"a\": \x7d \x7b\"action\": \"teleport\"\x7d \x7b\"action\": \"delete\"\x7d") =
      .ok [.jobj [("action", .jstr "delete")]] ∧
    (parse_response defaultParser
      "\x7b\"a\": \x7d \x7b\"action\": \"teleport\"\x7d \x7b\"action\": \"delete\"\x7d").commands =
      [.jobj [("action", .jstr "delete")]] := by
  have h := C6_amended_per_candidate_isolation
    "\x7b\"a\": \x7d \x7b\"action\": \"teleport\"\x7d \x7b\"action\": \"delete\"\x7d" (by rfl)
  exact ⟨h.1, h.2 (List.cons_ne_nil _ _)⟩

/-- Helper: the candidate loop only reads `supported_actions` from the
parser state. -/
theorem collectValid_tables_irrel (acts t t' : List String)
    (th th' : List (String × PyFloat)) :
    ∀ blocks : List String,
      collectValid ⟨acts, t, th⟩ blocks = collectValid ⟨acts, t', th'⟩ blocks := by
  intro blocks
  induction blocks with
  | nil => rfl
  | cons b rest ih =>
    have hv : ∀ v, _validate_command (⟨acts, t, th⟩ : SolidWorksCommandParser) v =
        _validate_command ⟨acts, t', th'⟩ v := fun _ => rfl
    cases hl : json_loads b with
    | error e => simp only [collectValid, hl]; exact ih
    | ok v => simp only [collectValid, hl]; rw [hv v, ih]

/-- Helper: `parse_response` only reads `supported_actions` from the parser
state — the `supported_types` and `thread_sizes` tables never influence any
result. -/
theorem parse_response_tables_irrel (acts t t' : List String)
    (th th' : List (String × PyFloat)) (s : String) :
    parse_response ⟨acts, t, th⟩ s = parse_response ⟨acts, t', th'⟩ s := by
  have h1 : collectValid (⟨acts, t, th⟩ : SolidWorksCommandParser)
      (_extract_all_json ⟨acts, t, th⟩ s) =
      collectValid (⟨acts, t', th'⟩ : SolidWorksCommandParser)
        (_extract_all_json ⟨acts, t', th'⟩ s) := by
    rw [show _extract_all_json (⟨acts, t, th⟩ : SolidWorksCommandParser) s =
        _extract_all_json ⟨acts, t', th'⟩ s from rfl]
    exact collectValid_tables_irrel acts t t' th th' _
  have h2 : _infer_command (⟨acts, t, th⟩ : SolidWorksCommandParser) s =
      _infer_command ⟨acts, t', th'⟩ s := rfl
  unfold parse_response parse_response_core
  rw [h1, h2]

/-- C9: validation inspects only the `action` field — `parse_response` is
unchanged under any replacement of the `supported_types` table, validation
depends only on the looked-up `action` value, and an object with a
recognized action passes with an unknown `type` or with no `type` /
`parameters` at all. -/
theorem C9_validation_ignores_supported_types :
    (∀ (acts types types' : List String) (th : List (String × PyFloat)) (s : String),
      parse_response ⟨acts, types, th⟩ s = parse_response ⟨acts, types', th⟩ s) ∧
    (∀ fields fields' : List (String × JsonVal),
      dictGetD fields "action" (.jstr "") = dictGetD fields' "action" (.jstr "") →
      _validate_command defaultParser (.jobj fields) =
        _validate_command defaultParser (.jobj fields')) ∧
    _validate_command defaultParser
      (.jobj [("action", .jstr "create"), ("type", .jstr "warp_core")]) = .ok true ∧
    _validate_command defaultParser (.jobj [("action", .jstr "delete")]) = .ok true := by
  refine ⟨fun acts types types' th s => parse_response_tables_irrel acts types types' th th s,
    fun fields fields' h => ?_, rfl, rfl⟩
  simp only [_validate_command, h]

/-- Witness for C9: two dicts with the same `action` but different `type`
and `parameters` fields validate identically. -/
theorem C9_validation_ignores_supported_types_witness :
    _validate_command defaultParser
      (.jobj [("action", .jstr "add"), ("type", .jstr "no_such_type"),
              ("parameters", .jobj [])]) =
    _validate_command defaultParser (.jobj [("x", .jint 1), ("action", .jstr "add")]) :=
  C9_validation_ignores_supported_types.2.1
    [("action", .jstr "add"), ("type", .jstr "no_such_type"), ("parameters", .jobj [])]
    [("x", .jint 1), ("action", .jstr "add")] (by rfl)

/-- C10: the `thread_sizes` tap-drill table is never consulted on any
parsing path — `parse_response` is unchanged under any replacement of the
table — and every inferred command whose `type` is `threaded_hole` carries
exactly the parameters `thread_size`, `depth`, `count`, `units` (no
tap-drill diameter). -/
theorem C10_thread_size_table_unused :
    (∀ (acts types : List String) (th th' : List (String × PyFloat)) (s : String),
      parse_response ⟨acts, types, th⟩ s = parse_response ⟨acts, types, th'⟩ s) ∧
    (∀ (text : String) (fields : List (String × JsonVal)),
      _infer_command defaultParser text = some (.jobj fields) →
      dictGet? fields "type" = some (.jstr "threaded_hole") →
      ∃ ts dep cnt, dictGet? fields "parameters" = some (.jobj
        [("thread_size", .jstr ts), ("depth", dep), ("count", .jint cnt),
         ("units", .jstr "mm")])) := by
  refine ⟨fun acts types th th' s => parse_response_tables_irrel acts types types th th' s,
    fun text fields h htype => ?_⟩
  simp only [_infer_command] at h
  by_cases g1 : ((threadSearch false (pyLower text).data).isSome &&
      containsAny (pyLower text) ["hole", "threaded", "tap", "thread"]) = true
  · rw [if_pos g1] at h
    injection h with h; injection h with h; subst h
    exact ⟨_, _, _, rfl⟩
  rw [if_neg g1] at h
  by_cases g2 : (containsAny (pyLower text)
      ["longer", "shorter", "wider", "narrower", "thicker", "thinner",
       "taller", "higher", "deeper"] &&
      truthyOpt (_extract_single_dimension defaultParser text "")) = true
  · rw [if_pos g2] at h
    injection h with h; injection h with h; subst h
    injection htype with h1; injection h1 with h2; exact absurd h2 (by decide)
  rw [if_neg g2] at h
  by_cases g3 : containsAny (pyLower text)
      ["box", "cube", "rectangular", "block", "plate"] = true
  · rw [if_pos g3] at h
    injection h with h; injection h with h; subst h
    injection htype with h1; injection h1 with h2; exact absurd h2 (by decide)
  rw [if_neg g3] at h
  by_cases g4 : containsAny (pyLower text)
      ["cylinder", "rod", "tube", "pipe", "round"] = true
  · rw [if_pos g4] at h
    injection h with h; injection h with h; subst h
    injection htype with h1; injection h1 with h2; exact absurd h2 (by decide)
  rw [if_neg g4] at h
  by_cases g5 : (containsAny (pyLower text) ["hole", "drill", "bore"] &&
      !(threadSearch false (pyLower text).data).isSome) = true
  · rw [if_pos g5] at h
    injection h with h; injection h with h; subst h
    injection htype with h1; injection h1 with h2; exact absurd h2 (by decide)
  rw [if_neg g5] at h
  by_cases g6 : (containsAny (pyLower text) ["fillet", "round", "radius"] &&
      !strContains (pyLower text) "corner") = true
  · rw [if_pos g6] at h
    injection h with h; injection h with h; subst h
    injection htype with h1; injection h1 with h2; exact absurd h2 (by decide)
  rw [if_neg g6] at h
  by_cases g7 : strContains (pyLower text) "chamfer" = true
  · rw [if_pos g7] at h
    injection h with h; injection h with h; subst h
    injection htype with h1; injection h1 with h2; exact absurd h2 (by decide)
  rw [if_neg g7] at h
  by_cases g8 : (strContains (pyLower text) "shell" ||
      strContains (pyLower text) "hollow") = true
  · rw [if_pos g8] at h
    injection h with h; injection h with h; subst h
    injection htype with h1; injection h1 with h2; exact absurd h2 (by decide)
  rw [if_neg g8] at h
  by_cases g9 : containsAny (pyLower text) ["extrude", "extrusion", "boss"] = true
  · rw [if_pos g9] at h
    injection h with h; injection h with h; subst h
    injection htype with h1; injection h1 with h2; exact absurd h2 (by decide)
  rw [if_neg g9] at h
  by_cases g10 : containsAny (pyLower text) ["cut", "pocket", "remove"] = true
  · rw [if_pos g10] at h
    injection h with h; injection h with h; subst h
    injection htype with h1; injection h1 with h2; exact absurd h2 (by decide)
  rw [if_neg g10] at h
  by_cases g11 : strContains (pyLower text) "pattern" = true
  · rw [if_pos g11] at h
    by_cases g12 : (strContains (pyLower text) "circular" ||
        strContains (pyLower text) "radial") = true
    · rw [if_pos g12] at h
      injection h with h; injection h with h; subst h
      injection htype with h1; injection h1 with h2; exact absurd h2 (by decide)
    · rw [if_neg g12] at h
      injection h with h; injection h with h; subst h
      injection htype with h1; injection h1 with h2; exact absurd h2 (by decide)
  rw [if_neg g11] at h
  exact Option.noConfusion h

/-- Witness for C10: the inferred command for `"Add an M4 hole"` is a
threaded-hole command whose parameter keys are exactly the four listed. -/
theorem C10_thread_size_table_unused_witness :
    ∃ ts dep cnt, dictGet?
      [("action", JsonVal.jstr "create"),
       ("type", JsonVal.jstr "threaded_hole"),
       ("parameters", JsonVal.jobj
         [("thread_size", JsonVal.jstr "M4"),
          ("depth", JsonVal.jint 15),
          ("count", JsonVal.jint 4),
          ("units", JsonVal.jstr "mm")]),
       ("description", JsonVal.jstr "Create 4x M4 threaded hole(s)")]
      "parameters" = some (.jobj
        [("thread_size", .jstr ts), ("depth", dep), ("count", .jint cnt),
         ("units", .jstr "mm")]) :=
  C10_thread_size_table_unused.2 "Add an M4 hole" _ (by rfl) (by rfl)

theorem depthAt_succ (t : List Char) (k : Nat) (c : Char) (h : t.get? k = some c) :
    depthAt t (k + 1) = depthAt t k + braceDelta c := by
  unfold depthAt
  rw [List.take_succ]
  simp [← List.get?_eq_getElem?, h]

/-- The spec-side description of one emitted span of the brace scan: a `}`
at `j0` where the depth returns to zero, matched with the `{` at `i0` where
it last left zero, the depth staying positive strictly inside. -/
def SpanCond (t : List Char) (i0 j0 : Nat) : Prop :=
  i0 < j0 ∧ t.get? j0 = some '}' ∧ depthAt t (j0 + 1) = 0 ∧
  t.get? i0 = some '{' ∧ depthAt t i0 = 0 ∧
  ∀ m, i0 < m → m ≤ j0 → 0 < depthAt t m

/-- The scan never drops accumulated blocks. -/
theorem braceLoop_mono (t : List Char) :
    ∀ (rest : List Char) (i : Nat) (count : Int) (start : Option Nat)
      (blocks : List String) (x : String), x ∈ blocks →
      x ∈ braceLoop t rest i count start blocks := by
  intro rest
  induction rest with
  | nil => intro i count start blocks x hx; exact hx
  | cons c rs ih =>
    intro i count start blocks x hx
    simp only [braceLoop]
    by_cases h1 : c = '{'
    · rw [if_pos h1]; exact ih _ _ _ _ x hx
    rw [if_neg h1]
    by_cases h2 : c = '}'
    · rw [if_pos h2]
      by_cases h3 : count - 1 = 0
      · rw [if_pos h3]
        cases start with
        | some a =>
          refine ih _ _ _ _ x ?_
          by_cases hc : List.contains blocks (sliceStr t a i) = true
          · rw [if_pos hc]; exact hx
          · rw [if_neg hc]; exact List.mem_append_left _ hx
        | none => exact ih _ _ _ _ x hx
      · rw [if_neg h3]; exact ih _ _ _ _ x hx
    · rw [if_neg h2]; exact ih _ _ _ _ x hx

/-- Completeness of the brace scan: under the loop invariants, every
`SpanCond` span still ahead of the cursor ends up (as its text) in the
result. -/
theorem braceLoop_spans (t : List Char) :
    ∀ (rest : List Char) (i : Nat) (count : Int) (start : Option Nat) (blocks : List String),
      rest = t.drop i →
      count = depthAt t i →
      (0 < count → ∃ a, start = some a ∧ a < i ∧ t.get? a = some '{' ∧
        depthAt t a = 0 ∧ ∀ m, a < m → m ≤ i → 0 < depthAt t m) →
      (count ≤ 0 → start = none) →
      ∀ i0 j0, SpanCond t i0 j0 → i ≤ j0 →
        sliceStr t i0 j0 ∈ braceLoop t rest i count start blocks := by
  intro rest
  induction rest with
  | nil =>
    intro i count start blocks hrest _ _ _ i0 j0 hspan hij
    obtain ⟨-, hj, -, -, -, -⟩ := hspan
    have hjlen : j0 < t.length := (List.get?_eq_some.mp hj).1
    have hlen : t.length ≤ i := List.drop_eq_nil_iff.mp hrest.symm
    exact absurd hjlen (by omega)
  | cons c rs ih =>
    intro i count start blocks hrest hcount hpos hnonpos i0 j0 hspan hij
    obtain ⟨hi0j0, hj, hdj, hi0c, hd0, hinside⟩ := hspan
    have hti : t.get? i = some c := by
      have h0 : (List.drop i t)[0]? = t[i + 0]? := List.getElem?_drop t i 0
      rw [← hrest] at h0
      simpa [List.get?_eq_getElem?] using h0.symm
    have hrs : rs = t.drop (i + 1) := by
      have hdd : List.drop 1 (List.drop i t) = List.drop (i + 1) t := List.drop_drop 1 i t
      rw [← hrest] at hdd
      simpa using hdd
    have hdsucc : depthAt t (i + 1) = depthAt t i + braceDelta c := depthAt_succ t i c hti
    have hjlen : j0 < t.length := (List.get?_eq_some.mp hj).1
    simp only [braceLoop]
    by_cases h1 : c = '{'
    · -- opening brace: depth rises, start is set when it leaves zero
      subst h1
      rw [if_pos rfl]
      have hij' : i + 1 ≤ j0 := by
        rcases Nat.eq_or_lt_of_le hij with heq | hlt
        · subst heq
          rw [hti] at hj
          injection hj with hj
          exact absurd hj (by decide)
        · omega
      have hd1 : depthAt t (i + 1) = count + 1 := by
        rw [hdsucc, ← hcount]; simp [braceDelta]
      refine ih (i + 1) (count + 1) _ blocks hrs hd1.symm ?_ ?_ i0 j0
        ⟨hi0j0, hj, hdj, hi0c, hd0, hinside⟩ hij'
      · intro hpos1
        by_cases hc0 : count = 0
        · refine ⟨i, by rw [if_pos hc0], Nat.lt_succ_self i, hti, by omega, ?_⟩
          intro m hm1 hm2
          have : m = i + 1 := by omega
          subst this
          rw [hd1]; omega
        · have hcpos : 0 < count := by
            rcases Int.lt_or_lt_of_ne (fun h => hc0 h.symm) with hp | hneg
            · exact hp
            · exact absurd hpos1 (by omega)
          obtain ⟨a, hsa, hai, hac, had, hfor⟩ := hpos hcpos
          refine ⟨a, by rw [if_neg hc0]; exact hsa, by omega, hac, had, ?_⟩
          intro m hm1 hm2
          rcases Nat.eq_or_lt_of_le hm2 with heq | hlt
          · subst heq; rw [hd1]; omega
          · exact hfor m hm1 (by omega)
      · intro hle
        have hc0 : count ≠ 0 := by omega
        rw [if_neg hc0]
        exact hnonpos (by omega)
    rw [if_neg h1]
    by_cases h2 : c = '}'
    · subst h2
      rw [if_pos rfl]
      have hd1 : depthAt t (i + 1) = count - 1 := by
        rw [hdsucc, ← hcount, show braceDelta '}' = -1 from rfl]
        omega
      by_cases h3 : count - 1 = 0
      · rw [if_pos h3]
        have hcpos : 0 < count := by omega
        obtain ⟨a, hsa, hai, hac, had, hfor⟩ := hpos hcpos
        subst hsa
        by_cases hji : j0 = i
        · -- this is the emission of our span: its opening must be `a`
          subst hji
          have hai0 : a = i0 := by
            rcases lt_trichotomy a i0 with hlt | heq | hgt
            · exact absurd (hfor i0 hlt (by omega)) (by omega)
            · exact heq
            · exact absurd (hinside a hgt (by omega)) (by omega)
          subst hai0
          refine braceLoop_mono t rs (j0 + 1) (count - 1) none _ _ ?_
          by_cases hc : List.contains blocks (sliceStr t a j0) = true
          · rw [if_pos hc]
            exact List.elem_iff.mp hc
          · rw [if_neg hc]
            exact List.mem_append_right _ (List.mem_singleton.mpr rfl)
        · have hij' : i + 1 ≤ j0 := by omega
          refine ih (i + 1) (count - 1) none _ hrs hd1.symm
            (fun hcon => absurd hcon (by omega)) (fun _ => rfl) i0 j0
            ⟨hi0j0, hj, hdj, hi0c, hd0, hinside⟩ hij'
      · rw [if_neg h3]
        have hji : j0 ≠ i := by
          intro hji
          subst hji
          rw [hd1] at hdj
          exact h3 hdj
        have hij' : i + 1 ≤ j0 := by omega
        refine ih (i + 1) (count - 1) start blocks hrs hd1.symm ?_ ?_ i0 j0
          ⟨hi0j0, hj, hdj, hi0c, hd0, hinside⟩ hij'
        · intro hp
          obtain ⟨a, hsa, hai, hac, had, hfor⟩ := hpos (by omega)
          refine ⟨a, hsa, by omega, hac, had, ?_⟩
          intro m hm1 hm2
          rcases Nat.eq_or_lt_of_le hm2 with heq | hlt
          · subst heq; rw [hd1]; omega
          · exact hfor m hm1 (by omega)
        · intro hle
          exact hnonpos (by omega)
    · rw [if_neg h2]
      have hd1 : depthAt t (i + 1) = count := by
        rw [hdsucc, ← hcount]; simp [braceDelta, h1, h2]
      have hji : j0 ≠ i := by
        intro hji
        subst hji
        rw [hti] at hj
        injection hj with hj
        exact h2 hj
      have hij' : i + 1 ≤ j0 := by omega
      refine ih (i + 1) count start blocks hrs hd1.symm ?_ ?_ i0 j0
        ⟨hi0j0, hj, hdj, hi0c, hd0, hinside⟩ hij'
      · intro hp
        obtain ⟨a, hsa, hai, hac, had, hfor⟩ := hpos hp
        refine ⟨a, hsa, by omega, hac, had, ?_⟩
        intro m hm1 hm2
        rcases Nat.eq_or_lt_of_le hm2 with heq | hlt
        · subst heq; rw [hd1]; omega
        · exact hfor m hm1 (by omega)
      · exact hnonpos

/-- C8: the brace-balance scan yields one candidate per maximal balanced
span — `{"a": {"b": 1}}` produces exactly the one whole-object candidate,
and in general whenever the depth counter returns to zero at a `}` after
having gone positive, the inclusive span from the opening `{` (the position
where the depth last left zero) to that `}` is among the extracted
candidates. -/
theorem C8_brace_scan_spans :
    _extract_all_json defaultParser "\x7b\"a\": \x7b\"b\": 1\x7d\x7d" = ["\x7b\"a\": \x7b\"b\": 1\x7d\x7d"] ∧
    ∀ (text : String) (i0 j0 : Nat),
      i0 < j0 → text.data.get? j0 = some '}' → depthAt text.data (j0 + 1) = 0 →
      text.data.get? i0 = some '{' → depthAt text.data i0 = 0 →
      (∀ m < j0 + 1, i0 < m → 0 < depthAt text.data m) →
      sliceStr text.data i0 j0 ∈ _extract_all_json defaultParser text := by
  refine ⟨rfl, fun text i0 j0 h1 h2 h3 h4 h5 h6 => ?_⟩
  have hspan : SpanCond text.data i0 j0 :=
    ⟨h1, h2, h3, h4, h5, fun m hm1 hm2 => h6 m (by omega) hm1⟩
  exact braceLoop_spans text.data text.data 0 0 none _
    (by rw [List.drop_zero]) rfl (by omega) (fun _ => rfl) i0 j0 hspan (Nat.zero_le j0)

/-- Witness for C8's generic span property at `"x{a}y"`, span 1–3. -/
theorem C8_brace_scan_spans_witness :
    sliceStr "x\x7ba\x7dy".data 1 3 ∈ _extract_all_json defaultParser "x\x7ba\x7dy" :=
  C8_brace_scan_spans.2 "x\x7ba\x7dy" 1 3 (by decide) (by decide) (by decide)
    (by decide) (by decide) (by decide)

end SwPlugin
